import Mathlib

/-!
Shallow embedding of `src/glyph-brush/src/section.rs` (glyph-brush):
the `Section`/`Text` data model, the builder methods, the `Hash`
implementation for `Section`, and the decomposed hash streams of
`HashableSectionParts` (`hash_geometry`, `hash_text_no_extra`,
`hash_extra`).

Hashing is modelled at the level of the byte stream a Rust `Hasher`
receives: a `Hash` implementation is translated to a function producing
a `List HashTok` of the primitive writes, and two hashes agree exactly
when they feed the hasher the same stream.
-/

/-- Model of an `f32` value at the precision the section code observes.
`fin q` is a finite value (`fin 0` is positive zero), `negZero` is
`-0.0`, and `nan payload` distinguishes the different NaN bit patterns
that exist on real hardware. The code performs no float arithmetic:
floats are only stored, compared with `PartialEq`, and hashed through
`OrderedFloat`. -/
inductive F32 where
  | fin (q : ℚ)
  | negZero
  | posInf
  | negInf
  | nan (payload : ℕ)
deriving DecidableEq

/-- Rust `PartialEq` on `f32`: every NaN compares unequal to everything
(itself included), and `0.0 == -0.0`. -/
def F32.beq : F32 → F32 → Bool
  | .fin a, .fin b => a == b
  | .fin a, .negZero => a == 0
  | .negZero, .fin b => b == 0
  | .negZero, .negZero => true
  | .posInf, .posInf => true
  | .negInf, .negInf => true
  | _, _ => false

/-- The canonical bit pattern `OrderedFloat` hashes: every NaN collapses
to one canonical NaN, and both zeroes collapse to canonical zero
(`raw_double_bits` in the ordered_float crate returns canonical bits for
NaN and for a zero mantissa). -/
inductive F32Canon where
  | zero
  | nan
  | posInf
  | negInf
  | fin (q : ℚ)
deriving DecidableEq

/-- Canonicalisation performed by the `Hash` impl of `OrderedFloat<f32>`. -/
def F32.canon : F32 → F32Canon
  | .fin q => if q = 0 then .zero else .fin q
  | .negZero => .zero
  | .posInf => .posInf
  | .negInf => .negInf
  | .nan _ => .nan

def F32.isNaN : F32 → Bool
  | .nan _ => true
  | _ => false

/-- Primitive values written into a `Hasher`: a canonical float bit
pattern (from `OrderedFloat::hash`), a string write (from `&str`), a
slice length prefix, a `FontId` index write, and the opaque write of a
`Layout` value. -/
inductive HashTok where
  | f32 (c : F32Canon)
  | str (s : String)
  | len (n : ℕ)
  | font (n : ℕ)
  | layout (n : ℕ)
deriving DecidableEq

/-- Modelled from the spec: `FontId` (declared outside src/) is "an
opaque reference into an external font collection"; in the crate it is a
newtype over an index, hashed as that index. -/
structure FontId where
  id : ℕ
deriving DecidableEq

/-- Modelled from the spec: `Layout<BuiltInLineBreaker>` (from the
layout crate, not under src/) is "opaque to this core; only required to
be hashable and comparable", with a default configuration. It is
modelled as an opaque identifier hashed as one opaque write. -/
structure Layout where
  id : ℕ
deriving DecidableEq

def Layout.default : Layout := ⟨0⟩

/-- Modelled from the spec: `PxScale` (from ab_glyph, not under src/) is
"a 2D pixel scale (horizontal, vertical) — not required to be uniform";
converting a single float yields the uniform scale. -/
structure PxScale where
  x : F32
  y : F32
deriving DecidableEq

def PxScale.ofF32 (v : F32) : PxScale := ⟨v, v⟩

/-- Rust `PartialEq` on `PxScale` (derived, so componentwise float
equality). -/
def PxScale.beq (a b : PxScale) : Bool := a.x.beq b.x && a.y.beq b.y

/-- Color, `pub type Color = [f32; 4]` from section.rs, as four RGBA
components. -/
structure Color where
  r : F32
  g : F32
  b : F32
  a : F32
deriving DecidableEq

def Color.beq (a b : Color) : Bool :=
  a.r.beq b.r && a.g.beq b.g && a.b.beq b.b && a.a.beq b.a

/-- Modelled from the spec: the default `Extra` payload (extra.rs, not
under src/) carries "color, outline color, depth/z value", with sentinel
defaults "opaque black fill, zero outline, zero depth"; it is cloneable,
equatable and hashable, its floats hashed through the canonical
wrapper. -/
structure Extra where
  color : Color
  outline_color : Color
  z : F32
deriving DecidableEq

def Extra.default : Extra :=
  ⟨⟨.fin 0, .fin 0, .fin 0, .fin 1⟩, ⟨.fin 0, .fin 0, .fin 0, .fin 0⟩, .fin 0⟩

/-- Rust `PartialEq` on `Extra` (derived, componentwise float equality). -/
def Extra.beq (a b : Extra) : Bool :=
  a.color.beq b.color && a.outline_color.beq b.outline_color && a.z.beq b.z

/-- Hash stream of `Extra`: its nine floats hashed as one canonical
float array (length prefix then the canonical bit patterns). -/
def Extra.tokens (e : Extra) : List HashTok :=
  [.len 9, .f32 e.color.r.canon, .f32 e.color.g.canon, .f32 e.color.b.canon,
   .f32 e.color.a.canon, .f32 e.outline_color.r.canon, .f32 e.outline_color.g.canon,
   .f32 e.outline_color.b.canon, .f32 e.outline_color.a.canon, .f32 e.z.canon]

/-- Canonical forms of the nine floats of an `Extra`; two extras write
the same hash stream exactly when these agree. -/
def Extra.canonL (e : Extra) : List F32Canon :=
  [e.color.r.canon, e.color.g.canon, e.color.b.canon, e.color.a.canon,
   e.outline_color.r.canon, e.outline_color.g.canon, e.outline_color.b.canon,
   e.outline_color.a.canon, e.z.canon]

/-- No float field of the extra is NaN. -/
def Extra.noNaN (e : Extra) : Bool :=
  !e.color.r.isNaN && !e.color.g.isNaN && !e.color.b.isNaN && !e.color.a.isNaN &&
  !e.outline_color.r.isNaN && !e.outline_color.g.isNaN && !e.outline_color.b.isNaN &&
  !e.outline_color.a.isNaN && !e.z.isNaN

/-- Rust `Hash` as the stream of primitive hasher writes a value
produces. -/
class RustHash (α : Type) where
  tokens : α → List HashTok

instance : RustHash Extra := ⟨Extra.tokens⟩

/-- Rust `PartialEq` for a generic extra payload. -/
class RustEq (α : Type) where
  req : α → α → Bool

instance : RustEq Extra := ⟨Extra.beq⟩

variable {X X2 : Type}

/-- `Text<'a, X>` from section.rs: one styled run of text. -/
structure Text (X : Type) where
  text : String
  scale : PxScale
  font_id : FontId
  extra : X
deriving DecidableEq

/-- `Section<'a, X>` from section.rs: geometry, layout and an ordered
sequence of runs. -/
structure Section (X : Type) where
  screen_position : F32 × F32
  bounds : F32 × F32
  layout : Layout
  text : List (Text X)
deriving DecidableEq

/-- Rust `PartialEq` on `Text` (derived, fields compared in order with
float semantics on the scale). -/
def Text.beq [RustEq X] (a b : Text X) : Bool :=
  a.text == b.text && a.scale.beq b.scale && a.font_id.id == b.font_id.id &&
    RustEq.req a.extra b.extra

/-- `Vec` equality: same length, pointwise `PartialEq`. -/
def listBeq (f : α → α → Bool) : List α → List α → Bool
  | [], [] => true
  | x :: xs, y :: ys => f x y && listBeq f xs ys
  | _, _ => false

/-- Rust `PartialEq` on `Section` (derived). -/
def Section.beq [RustEq X] (a b : Section X) : Bool :=
  a.screen_position.1.beq b.screen_position.1 &&
  a.screen_position.2.beq b.screen_position.2 &&
  a.bounds.1.beq b.bounds.1 && a.bounds.2.beq b.bounds.2 &&
  a.layout.id == b.layout.id &&
  listBeq Text.beq a.text b.text

/-- `Section::new()`: origin position, unbounded box, default layout,
no runs. -/
def Section.new (X : Type) : Section X :=
  ⟨(.fin 0, .fin 0), (.posInf, .posInf), Layout.default, []⟩

/-- `impl Default for Section<'static, Extra>`. -/
def Section.default : Section Extra := Section.new Extra

def Section.with_screen_position (s : Section X) (p : F32 × F32) : Section X :=
  { s with screen_position := p }

def Section.with_bounds (s : Section X) (b : F32 × F32) : Section X :=
  { s with bounds := b }

def Section.with_layout (s : Section X) (l : Layout) : Section X :=
  { s with layout := l }

/-- `Section::add_text`: pushes one run at the end. -/
def Section.add_text (s : Section X) (t : Text X) : Section X :=
  { s with text := s.text ++ [t] }

/-- `Section::with_text`: replaces the whole run sequence (this may
change the extra payload type). -/
def Section.with_text (s : Section X) (ts : List (Text X2)) : Section X2 :=
  ⟨s.screen_position, s.bounds, s.layout, ts⟩

/-- `impl Default for Text<'static, X>` at the default payload: empty
text, uniform scale 16, font 0, default extra. -/
def Text.default : Text Extra :=
  ⟨"", PxScale.ofF32 (.fin 16), ⟨0⟩, Extra.default⟩

def Text.with_text (t : Text X) (s : String) : Text X :=
  { t with text := s }

def Text.with_scale (t : Text X) (sc : PxScale) : Text X :=
  { t with scale := sc }

def Text.with_font_id (t : Text X) (f : FontId) : Text X :=
  { t with font_id := f }

/-- `Text::with_extra`: replaces the payload (possibly changing its
type). -/
def Text.with_extra (t : Text X) (e : X2) : Text X2 :=
  ⟨t.text, t.scale, t.font_id, e⟩

/-- `Text::new`: the default text with the given content. -/
def Text.new (s : String) : Text Extra := Text.default.with_text s

def Text.with_color (t : Text Extra) (c : Color) : Text Extra :=
  { t with extra := { t.extra with color := c } }

def Text.with_outline_color (t : Text Extra) (c : Color) : Text Extra :=
  { t with extra := { t.extra with outline_color := c } }

def Text.with_z (t : Text Extra) (z : F32) : Text Extra :=
  { t with extra := { t.extra with z := z } }

/-- `hash_section_text` from section.rs: for each run, in order, hash
the tuple `(text, font_id, extra, [scale.x, scale.y])` — the string, the
font index, the extra payload stream, then the two scale floats as a
canonical-float array (length prefix then elements). -/
def hash_section_text [RustHash X] : List (Text X) → List HashTok
  | [] => []
  | t :: rest =>
      [HashTok.str t.text, HashTok.font t.font_id.id] ++ RustHash.tokens t.extra ++
        [HashTok.len 2, HashTok.f32 t.scale.x.canon, HashTok.f32 t.scale.y.canon] ++
        hash_section_text rest

/-- `impl Hash for Section`: hashes the layout, then the per-run
text+extra stream, then the four geometry floats as a canonical-float
slice. -/
def Section.hashTokens [RustHash X] (s : Section X) : List HashTok :=
  HashTok.layout s.layout.id ::
    (hash_section_text s.text ++
      [HashTok.len 4, HashTok.f32 s.screen_position.1.canon,
       HashTok.f32 s.screen_position.2.canon, HashTok.f32 s.bounds.1.canon,
       HashTok.f32 s.bounds.2.canon])

/-- `HashableSectionParts` from section.rs: the four geometry floats
(wrapped for canonical hashing at hash time) and the run slice. -/
structure HashableSectionParts (X : Type) where
  geometry : F32 × F32 × F32 × F32
  text : List (Text X)

/-- `Section::to_hashable_parts`: extracts geometry (discarding the
layout field) and borrows the runs. -/
def Section.to_hashable_parts (s : Section X) : HashableSectionParts X :=
  ⟨(s.screen_position.1, s.screen_position.2, s.bounds.1, s.bounds.2), s.text⟩

/-- `HashableSectionParts::hash_geometry`: the four canonical floats as
one array. -/
def HashableSectionParts.hash_geometry (p : HashableSectionParts X) : List HashTok :=
  [.len 4, .f32 p.geometry.1.canon, .f32 p.geometry.2.1.canon,
   .f32 p.geometry.2.2.1.canon, .f32 p.geometry.2.2.2.canon]

/-- Per-run stream of `hash_text_no_extra`: the tuple
`(text, font_id, scales)` with the extra payload explicitly omitted. -/
def textNoExtraTokens : List (Text X) → List HashTok
  | [] => []
  | t :: rest =>
      [HashTok.str t.text, HashTok.font t.font_id.id, HashTok.len 2,
       HashTok.f32 t.scale.x.canon, HashTok.f32 t.scale.y.canon] ++
        textNoExtraTokens rest

/-- `HashableSectionParts::hash_text_no_extra`. -/
def HashableSectionParts.hash_text_no_extra (p : HashableSectionParts X) : List HashTok :=
  textNoExtraTokens p.text

/-- Per-run stream of `hash_extra`: each run contributes only its extra
payload's stream. -/
def extraTokens [RustHash X] : List (Text X) → List HashTok
  | [] => []
  | t :: rest => RustHash.tokens t.extra ++ extraTokens rest

/-- `HashableSectionParts::hash_extra`. -/
def HashableSectionParts.hash_extra [RustHash X] (p : HashableSectionParts X) : List HashTok :=
  extraTokens p.text

/-- Modelled from the spec: `OwnedText` (owned_section.rs, not under
src/) is the fully-owned run, produced by field-wise deep copy. -/
structure OwnedText (X : Type) where
  text : String
  scale : PxScale
  font_id : FontId
  extra : X
deriving DecidableEq

/-- Modelled from the spec: `OwnedText::from(&Text)` deep-copies every
field (cloning the extra). -/
def OwnedText.fromText (t : Text X) : OwnedText X :=
  ⟨t.text, t.scale, t.font_id, t.extra⟩

/-- Modelled from the spec: the borrowed view of an owned run, used to
compare an owned section against borrowed ones. -/
def OwnedText.to_borrowed (t : OwnedText X) : Text X :=
  ⟨t.text, t.scale, t.font_id, t.extra⟩

/-- Modelled from the spec: `OwnedSection` (owned_section.rs, not under
src/), the fully-owned counterpart of `Section`. -/
structure OwnedSection (X : Type) where
  screen_position : F32 × F32
  bounds : F32 × F32
  layout : Layout
  text : List (OwnedText X)
deriving DecidableEq

/-- `Section::to_owned` from section.rs: field-wise copy, converting
each run with `OwnedText::from`. -/
def Section.to_owned (s : Section X) : OwnedSection X :=
  ⟨s.screen_position, s.bounds, s.layout, s.text.map OwnedText.fromText⟩

/-- Modelled from the spec: the borrowed (comparable) view of an owned
section. -/
def OwnedSection.to_borrowed (s : OwnedSection X) : Section X :=
  ⟨s.screen_position, s.bounds, s.layout, s.text.map OwnedText.to_borrowed⟩

/-- Claim C1's description of the full hash, following the spec's words:
layout first, then the geometry stream, then the per-run text+extra
stream. -/
def specOrderHashTokens [RustHash X] (s : Section X) : List HashTok :=
  HashTok.layout s.layout.id ::
    (s.to_hashable_parts.hash_geometry ++ hash_section_text s.text)

/-- The canonical forms of a section's four geometry floats; the
geometry stream is exactly their array hash. -/
def Section.geomCanon (s : Section X) : F32Canon × F32Canon × F32Canon × F32Canon :=
  (s.screen_position.1.canon, s.screen_position.2.canon,
   s.bounds.1.canon, s.bounds.2.canon)

/-- No float stored in the run (scale or extra) is NaN. -/
def Text.noNaN (t : Text Extra) : Bool :=
  !t.scale.x.isNaN && !t.scale.y.isNaN && t.extra.noNaN

/-- No float stored anywhere in the section is NaN. -/
def Section.noNaN (s : Section Extra) : Bool :=
  !s.screen_position.1.isNaN && !s.screen_position.2.isNaN &&
  !s.bounds.1.isNaN && !s.bounds.2.isNaN && s.text.all Text.noNaN

/-- The layout-relevant projection of one run: content, font index and
canonical scale; `hash_text_no_extra` writes exactly this per run. -/
def noExtraKey (t : Text X) : String × ℕ × F32Canon × F32Canon :=
  (t.text, t.font_id.id, t.scale.x.canon, t.scale.y.canon)

/-! Helper lemmas about the canonical wrapper and the streams. -/

/-- Floats that compare equal under `PartialEq` hash through the same
canonical bit pattern (both zeroes canonicalise to one). -/
theorem F32.canon_eq_of_beq {a b : F32} (h : a.beq b = true) : a.canon = b.canon := by
  cases a <;> cases b <;> simp_all [F32.beq, F32.canon]

/-- `PartialEq` on `f32` is reflexive away from NaN. -/
theorem F32.beq_self_of_not_nan {a : F32} (h : a.isNaN = false) : a.beq a = true := by
  cases a <;> simp_all [F32.isNaN, F32.beq]

theorem textNoExtraTokens_append (xs ys : List (Text X)) :
    textNoExtraTokens (xs ++ ys) = textNoExtraTokens xs ++ textNoExtraTokens ys := by
  induction xs with
  | nil => rfl
  | cons x xs ih => simp [textNoExtraTokens, ih]

theorem extraTokens_append [RustHash X] (xs ys : List (Text X)) :
    extraTokens (xs ++ ys) = extraTokens xs ++ extraTokens ys := by
  induction xs with
  | nil => rfl
  | cons x xs ih => simp [extraTokens, ih]

theorem hash_section_text_append [RustHash X] (xs ys : List (Text X)) :
    hash_section_text (xs ++ ys) = hash_section_text xs ++ hash_section_text ys := by
  induction xs with
  | nil => rfl
  | cons x xs ih => simp [hash_section_text, ih]

/-- The text-without-extra stream is injective up to the layout-relevant
projection of each run: every run writes a fixed-width block of five
tokens determined by, and determining, its `noExtraKey`. -/
theorem textNoExtraTokens_eq_iff (xs ys : List (Text X)) :
    textNoExtraTokens xs = textNoExtraTokens ys ↔
      xs.map noExtraKey = ys.map noExtraKey := by
  induction xs generalizing ys with
  | nil => cases ys <;> simp [textNoExtraTokens]
  | cons x xs ih =>
      cases ys with
      | nil => simp [textNoExtraTokens]
      | cons y ys =>
          simp only [textNoExtraTokens, noExtraKey, ih, List.map_cons,
            List.cons_append, List.nil_append, List.cons.injEq, HashTok.str.injEq,
            HashTok.font.injEq, HashTok.f32.injEq, HashTok.len.injEq, Prod.mk.injEq]
          tauto

/-- Two extras write the same stream exactly when their canonical float
lists agree. -/
theorem Extra.tokens_eq_iff (a b : Extra) :
    Extra.tokens a = Extra.tokens b ↔ a.canonL = b.canonL := by
  simp [Extra.tokens, Extra.canonL]

/-- The extra-only stream of default-`Extra` runs is injective up to the
canonical forms of the per-run extras (each run writes a fixed-width
block of ten tokens). -/
theorem extraTokensE_eq_iff (xs ys : List (Text Extra)) :
    extraTokens xs = extraTokens ys ↔
      xs.map (fun t => t.extra.canonL) = ys.map (fun t => t.extra.canonL) := by
  induction xs generalizing ys with
  | nil => cases ys <;> simp [extraTokens, RustHash.tokens, Extra.tokens]
  | cons x xs ih =>
      cases ys with
      | nil => simp [extraTokens, RustHash.tokens, Extra.tokens]
      | cons y ys =>
          simp only [extraTokens, RustHash.tokens, Extra.tokens, Extra.canonL, ih,
            List.map_cons, List.cons_append, List.nil_append, List.cons.injEq,
            HashTok.f32.injEq, HashTok.len.injEq]
          tauto

/-- Mapping the owned-then-borrowed conversion over a run list is the
identity. -/
theorem list_map_roundtrip (tx : List (Text X)) :
    tx.map (OwnedText.to_borrowed ∘ OwnedText.fromText) = tx := by
  induction tx with
  | nil => rfl
  | cons t ts ih =>
      rw [List.map_cons, ih]
      exact rfl

/-- `PartialEq` on `Extra` is reflexive away from NaN. -/
theorem Extra.beq_self_of_extra_noNaN {e : Extra} (h : e.noNaN = true) : e.beq e = true := by
  obtain ⟨⟨r, g, b, a⟩, ⟨r2, g2, b2, a2⟩, z⟩ := e
  simp_all [Extra.noNaN, Extra.beq, Color.beq, F32.beq_self_of_not_nan]

/-- `PartialEq` on a default-`Extra` run is reflexive away from NaN. -/
theorem Text.beq_self_of_run_noNaN {t : Text Extra} (h : t.noNaN = true) : t.beq t = true := by
  obtain ⟨s, ⟨sx, sy⟩, f, e⟩ := t
  simp_all [Text.noNaN, Text.beq, PxScale.beq, F32.beq_self_of_not_nan, RustEq.req, Extra.beq_self_of_extra_noNaN]

theorem listBeq_text_refl {tx : List (Text Extra)} (h : tx.all Text.noNaN = true) :
    listBeq Text.beq tx tx = true := by
  induction tx with
  | nil => rfl
  | cons t ts ih => simp_all [listBeq, Text.beq_self_of_run_noNaN]

/-! Claim C1. -/

def exC1 : Section Extra := (Section.new Extra).add_text (Text.new "a")

/-- Claim C1, counterexample: for a section with one run, hashing in the
order the claim states (layout, then geometry, then text+extra) feeds
the hasher a different stream than the full-section hash, which hashes
the geometry floats last, not before the runs. -/
theorem C1_counterexample : specOrderHashTokens exC1 ≠ Section.hashTokens exC1 := by decide

/-- Claim C1, amended: the full-section hash produces the same stream as
hashing, in sequence into one hasher, the layout configuration, then the
per-run text+extra stream, then the geometry stream of the decomposition
engine. -/
theorem C1_full_hash_stream [RustHash X] (s : Section X) :
    s.hashTokens =
      HashTok.layout s.layout.id ::
        (hash_section_text s.text ++ s.to_hashable_parts.hash_geometry) := rfl

/-! Claim C2. -/

def nanSecC2 : Section Extra := (Section.new Extra).with_screen_position (.nan 0, .fin 0)

/-- Claim C2, counterexample: a section whose screen position holds a
NaN has fields identical to itself, yet Rust equality on it fails
(`PartialEq` on floats makes NaN unequal to everything), so identical
fields do not imply `A == B`. -/
theorem C2_counterexample :
    nanSecC2 = nanSecC2 ∧ Section.beq nanSecC2 nanSecC2 = false := ⟨rfl, by decide⟩

/-- Claim C2, amended: sections with identical fields always hash
identically; they moreover compare equal under the derived `PartialEq`
provided no float field (geometry, scale or extra) is NaN. -/
theorem C2_structural (A B : Section Extra) (h : A = B) :
    A.hashTokens = B.hashTokens ∧ (A.noNaN = true → Section.beq A B = true) := by
  subst h
  refine ⟨rfl, fun hn => ?_⟩
  obtain ⟨⟨px, py⟩, ⟨bw, bh⟩, ly, tx⟩ := A
  simp_all [Section.noNaN, Section.beq, F32.beq_self_of_not_nan, listBeq_text_refl]

def witSecC2 : Section Extra :=
  ((Section.new Extra).with_bounds (.fin 100, .fin 200)).add_text (Text.new "hi")

/-- Claim C2, witness: the amended theorem applied to a concrete
NaN-free section. -/
theorem C2_witness : Section.beq witSecC2 witSecC2 = true :=
  (C2_structural witSecC2 witSecC2 rfl).2 (by decide)

/-! Claim C3. -/

def c3A : Section Extra := (Section.new Extra).add_text ((Text.new "a").with_z (.nan 0))
def c3B : Section Extra := (Section.new Extra).add_text ((Text.new "a").with_z (.nan 1))

/-- Claim C3, counterexample: two sections identical except for the one
run's extra payload, whose z floats are two different NaN bit patterns.
The payloads actually differ, yet the extra-only streams coincide,
because `OrderedFloat` collapses every NaN to one canonical bit pattern
before hashing. -/
theorem C3_counterexample :
    c3A ≠ c3B ∧
    ((Text.new "a").with_z (.nan 0)).extra ≠ ((Text.new "a").with_z (.nan 1)).extra ∧
    c3A.screen_position = c3B.screen_position ∧ c3A.bounds = c3B.bounds ∧
    c3A.layout = c3B.layout ∧
    c3A.to_hashable_parts.hash_geometry = c3B.to_hashable_parts.hash_geometry ∧
    c3A.to_hashable_parts.hash_text_no_extra = c3B.to_hashable_parts.hash_text_no_extra ∧
    c3A.to_hashable_parts.hash_extra = c3B.to_hashable_parts.hash_extra := by decide

/-- Claim C3, amended: for two sections that differ only in one run's
extra payload, the geometry stream and the text-without-extra stream are
always equal, and the extra-only stream differs whenever the two
payloads differ in canonical form (as `OrderedFloat` hashes them), the
only sense of difference the stream can reflect. -/
theorem C3_extra_stream (sp bd : F32 × F32) (ly : Layout)
    (pre post : List (Text Extra)) (t : Text Extra) (e : Extra)
    (hdiff : t.extra.canonL ≠ e.canonL) :
    (Section.mk sp bd ly (pre ++ (t.with_extra e :: post))).to_hashable_parts.hash_geometry =
      (Section.mk sp bd ly (pre ++ (t :: post))).to_hashable_parts.hash_geometry ∧
    (Section.mk sp bd ly (pre ++ (t.with_extra e :: post))).to_hashable_parts.hash_text_no_extra =
      (Section.mk sp bd ly (pre ++ (t :: post))).to_hashable_parts.hash_text_no_extra ∧
    (Section.mk sp bd ly (pre ++ (t.with_extra e :: post))).to_hashable_parts.hash_extra ≠
      (Section.mk sp bd ly (pre ++ (t :: post))).to_hashable_parts.hash_extra := by
  refine ⟨rfl, ?_, ?_⟩
  · simp [HashableSectionParts.hash_text_no_extra, Section.to_hashable_parts,
      textNoExtraTokens_append, textNoExtraTokens, Text.with_extra]
  · intro h
    apply hdiff
    simp only [HashableSectionParts.hash_extra, Section.to_hashable_parts] at h
    rw [extraTokensE_eq_iff] at h
    simp only [List.map_append, List.map_cons, Text.with_extra] at h
    have h2 := List.append_cancel_left h
    simp only [List.cons.injEq] at h2
    exact h2.1.symm

def c3t : Text Extra := Text.new "a"
def c3e : Extra := ⟨⟨.fin 1, .fin 0, .fin 0, .fin 1⟩, ⟨.fin 0, .fin 0, .fin 0, .fin 0⟩, .fin 0⟩

/-- Claim C3, witness: the amended theorem applied to one concrete run
whose color payload is replaced by a canonically different one. -/
theorem C3_witness :
    c3t.extra.canonL ≠ c3e.canonL ∧
    (Section.mk (.fin 0, .fin 0) (.posInf, .posInf) Layout.default
        [c3t.with_extra c3e]).to_hashable_parts.hash_extra ≠
      (Section.mk (.fin 0, .fin 0) (.posInf, .posInf) Layout.default
        [c3t]).to_hashable_parts.hash_extra :=
  ⟨by decide,
   (C3_extra_stream (.fin 0, .fin 0) (.posInf, .posInf) Layout.default [] [] c3t c3e
      (by decide)).2.2⟩

/-! Claim C4. -/

def c4A : Section Extra := (Section.new Extra).with_screen_position (.nan 0, .fin 0)
def c4B : Section Extra := (Section.new Extra).with_screen_position (.nan 1, .fin 0)

/-- Claim C4, counterexample: two sections that differ only in their
screen position (two different NaN bit patterns) have equal
text-without-extra and extra-only streams as claimed, but the geometry
stream does not differ, because `OrderedFloat` canonicalises NaN before
hashing. -/
theorem C4_counterexample :
    c4A ≠ c4B ∧ c4A.screen_position ≠ c4B.screen_position ∧ c4A.bounds = c4B.bounds ∧
    c4A.layout = c4B.layout ∧ c4A.text = c4B.text ∧
    c4A.to_hashable_parts.hash_text_no_extra = c4B.to_hashable_parts.hash_text_no_extra ∧
    c4A.to_hashable_parts.hash_extra = c4B.to_hashable_parts.hash_extra ∧
    c4A.to_hashable_parts.hash_geometry = c4B.to_hashable_parts.hash_geometry := by decide

/-- Claim C4, amended: for sections with identical layout and identical
run sequences, the text-without-extra and extra-only streams are equal,
and the geometry stream differs whenever the position or bounds differ
in canonical form (as `OrderedFloat` hashes them). -/
theorem C4_geometry_stream [RustHash X] (A B : Section X)
    (_hl : A.layout = B.layout) (ht : A.text = B.text)
    (hg : A.geomCanon ≠ B.geomCanon) :
    A.to_hashable_parts.hash_text_no_extra = B.to_hashable_parts.hash_text_no_extra ∧
    A.to_hashable_parts.hash_extra = B.to_hashable_parts.hash_extra ∧
    A.to_hashable_parts.hash_geometry ≠ B.to_hashable_parts.hash_geometry := by
  refine ⟨by simp [HashableSectionParts.hash_text_no_extra, Section.to_hashable_parts, ht],
          by simp [HashableSectionParts.hash_extra, Section.to_hashable_parts, ht], ?_⟩
  intro h
  apply hg
  simp only [HashableSectionParts.hash_geometry, Section.to_hashable_parts,
    List.cons.injEq, HashTok.f32.injEq, HashTok.len.injEq, and_true] at h
  simp only [Section.geomCanon, Prod.mk.injEq]
  exact ⟨h.2.1, h.2.2.1, h.2.2.2.1, h.2.2.2.2⟩

def c4wA : Section Extra := (Section.new Extra).with_bounds (.fin 100, .fin 50)
def c4wB : Section Extra := (Section.new Extra).with_bounds (.fin 50, .fin 100)

/-- Claim C4, witness: the amended theorem applied to the spec's own
example, bounds (100, 50) against bounds (50, 100). -/
theorem C4_witness :
    c4wA.geomCanon ≠ c4wB.geomCanon ∧
    c4wA.to_hashable_parts.hash_text_no_extra = c4wB.to_hashable_parts.hash_text_no_extra ∧
    c4wA.to_hashable_parts.hash_extra = c4wB.to_hashable_parts.hash_extra ∧
    c4wA.to_hashable_parts.hash_geometry ≠ c4wB.to_hashable_parts.hash_geometry :=
  ⟨by decide, C4_geometry_stream c4wA c4wB rfl rfl (by decide)⟩

/-! Claim C5. -/

def c5t1 : Text Extra := (Text.new "a").with_color ⟨.fin 1, .fin 0, .fin 0, .fin 1⟩
def c5t2 : Text Extra := (Text.new "a").with_color ⟨.fin 0, .fin 0, .fin 1, .fin 1⟩
def c5A : Section Extra := ((Section.new Extra).add_text c5t1).add_text c5t2
def c5B : Section Extra := ((Section.new Extra).add_text c5t2).add_text c5t1

/-- Claim C5, counterexample: swapping two distinct runs (same text,
scale and font, different colors) yields a different section with the
same run multiset, yet the text-without-extra stream is unchanged — the
stream only sees the layout-relevant projection of each run, so not
every swap changes it. -/
theorem C5_counterexample :
    c5t1 ≠ c5t2 ∧ c5A ≠ c5B ∧
    Multiset.ofList c5A.text = Multiset.ofList c5B.text ∧
    c5A.to_hashable_parts.hash_text_no_extra = c5B.to_hashable_parts.hash_text_no_extra := by
  decide

/-- Claim C5, amended: swapping the positions of two runs changes the
text-without-extra stream whenever the runs differ in their
layout-relevant projection (text content, font, canonical scale); the
stream is order-sensitive for such runs. -/
theorem C5_swap_changes_stream (sp bd : F32 × F32) (ly : Layout)
    (pre mid post : List (Text X)) (t1 t2 : Text X)
    (hkey : noExtraKey t1 ≠ noExtraKey t2) :
    (Section.mk sp bd ly
        (pre ++ (t2 :: (mid ++ (t1 :: post))))).to_hashable_parts.hash_text_no_extra ≠
      (Section.mk sp bd ly
        (pre ++ (t1 :: (mid ++ (t2 :: post))))).to_hashable_parts.hash_text_no_extra := by
  intro h
  apply hkey
  simp only [HashableSectionParts.hash_text_no_extra, Section.to_hashable_parts] at h
  rw [textNoExtraTokens_eq_iff] at h
  simp only [List.map_append, List.map_cons] at h
  have h2 := List.append_cancel_left h
  simp only [List.cons.injEq] at h2
  exact h2.1.symm

def c5w1 : Text Extra := Text.new "a"
def c5w2 : Text Extra := Text.new "b"

/-- Claim C5, witness: the amended theorem applied to two concrete runs
with different text content. -/
theorem C5_witness :
    noExtraKey c5w1 ≠ noExtraKey c5w2 ∧
    (Section.mk (.fin 0, .fin 0) (.posInf, .posInf) Layout.default
        [c5w2, c5w1]).to_hashable_parts.hash_text_no_extra ≠
      (Section.mk (.fin 0, .fin 0) (.posInf, .posInf) Layout.default
        [c5w1, c5w2]).to_hashable_parts.hash_text_no_extra :=
  ⟨by decide,
   C5_swap_changes_stream (.fin 0, .fin 0) (.posInf, .posInf) Layout.default [] [] []
     c5w1 c5w2 (by decide)⟩

/-! Claim C6. -/

/-- Claim C6: converting a borrowed section to its owned counterpart and
back to the borrowed (comparable) view reproduces the original section
exactly, hence preserves full equality, the full hash stream, and all
three decomposed streams. -/
theorem C6_roundtrip [RustHash X] (s : Section X) :
    s.to_owned.to_borrowed = s ∧
    (s.to_owned.to_borrowed).hashTokens = s.hashTokens ∧
    (s.to_owned.to_borrowed).to_hashable_parts.hash_geometry =
      s.to_hashable_parts.hash_geometry ∧
    (s.to_owned.to_borrowed).to_hashable_parts.hash_text_no_extra =
      s.to_hashable_parts.hash_text_no_extra ∧
    (s.to_owned.to_borrowed).to_hashable_parts.hash_extra =
      s.to_hashable_parts.hash_extra := by
  have h : s.to_owned.to_borrowed = s := by
    cases s with
    | mk sp bd ly tx =>
        simp only [Section.to_owned, OwnedSection.to_borrowed, List.map_map]
        rw [list_map_roundtrip]
  exact ⟨h, by rw [h], by rw [h], by rw [h], by rw [h]⟩

/-! Claim C7. -/

/-- Claim C7: `Section::new()` yields screen position (0, 0), bounds
(positive infinity, positive infinity), the default layout and an empty
run sequence, and `Section::default()` is the same value. -/
theorem C7_new_default :
    (∀ X : Type, (Section.new X).screen_position = (F32.fin 0, F32.fin 0) ∧
      (Section.new X).bounds = (F32.posInf, F32.posInf) ∧
      (Section.new X).layout = Layout.default ∧ (Section.new X).text = []) ∧
    Section.default = Section.new Extra :=
  ⟨fun _ => ⟨rfl, rfl, rfl, rfl⟩, rfl⟩

/-! Claim C8. -/

/-- Claim C8: every construction and builder operation of `Section` and
`Text` is total — on every well-typed input (NaN geometry, infinite or
degenerate bounds, and empty run sequences included, since the
quantifiers range over all of them) it produces the expected value
outright; no operation returns a failure signal or rejects its input. -/
theorem C8_infallible :
    (∀ X : Type, Section.new X =
        ⟨(F32.fin 0, F32.fin 0), (F32.posInf, F32.posInf), Layout.default, []⟩) ∧
    (∀ (X : Type) (s : Section X) (p : F32 × F32),
        s.with_screen_position p = ⟨p, s.bounds, s.layout, s.text⟩) ∧
    (∀ (X : Type) (s : Section X) (b : F32 × F32),
        s.with_bounds b = ⟨s.screen_position, b, s.layout, s.text⟩) ∧
    (∀ (X : Type) (s : Section X) (l : Layout),
        s.with_layout l = ⟨s.screen_position, s.bounds, l, s.text⟩) ∧
    (∀ (X : Type) (s : Section X) (t : Text X),
        s.add_text t = ⟨s.screen_position, s.bounds, s.layout, s.text ++ [t]⟩) ∧
    (∀ (X X2 : Type) (s : Section X) (ts : List (Text X2)),
        s.with_text ts = ⟨s.screen_position, s.bounds, s.layout, ts⟩) ∧
    (∀ s : String, Text.new s = ⟨s, PxScale.ofF32 (F32.fin 16), ⟨0⟩, Extra.default⟩) ∧
    (∀ (X : Type) (t : Text X) (s : String), t.with_text s = ⟨s, t.scale, t.font_id, t.extra⟩) ∧
    (∀ (X : Type) (t : Text X) (sc : PxScale),
        t.with_scale sc = ⟨t.text, sc, t.font_id, t.extra⟩) ∧
    (∀ (X : Type) (t : Text X) (f : FontId),
        t.with_font_id f = ⟨t.text, t.scale, f, t.extra⟩) ∧
    (∀ (X X2 : Type) (t : Text X) (e : X2),
        t.with_extra e = ⟨t.text, t.scale, t.font_id, e⟩) ∧
    (∀ (t : Text Extra) (c : Color),
        t.with_color c = ⟨t.text, t.scale, t.font_id, ⟨c, t.extra.outline_color, t.extra.z⟩⟩) ∧
    (∀ (t : Text Extra) (c : Color),
        t.with_outline_color c = ⟨t.text, t.scale, t.font_id, ⟨t.extra.color, c, t.extra.z⟩⟩) ∧
    (∀ (t : Text Extra) (z : F32),
        t.with_z z = ⟨t.text, t.scale, t.font_id, ⟨t.extra.color, t.extra.outline_color, z⟩⟩) :=
  ⟨fun _ => rfl, fun _ _ _ => rfl, fun _ _ _ => rfl, fun _ _ _ => rfl, fun _ _ _ => rfl,
   fun _ _ _ _ => rfl, fun _ => rfl, fun _ _ _ => rfl, fun _ _ _ => rfl, fun _ _ _ => rfl,
   fun _ _ _ _ => rfl, fun _ _ => rfl, fun _ _ => rfl, fun _ _ => rfl⟩

/-! Claim C9. -/

/-- Claim C9: none of the three decomposed streams reads the layout
field — two sections that differ only in layout produce identical
geometry, text-without-extra and extra-only streams — while the
full-section hash does distinguish them whenever the layouts differ. -/
theorem C9_layout_blind [RustHash X] (A B : Section X)
    (hp : A.screen_position = B.screen_position) (hb : A.bounds = B.bounds)
    (ht : A.text = B.text) :
    A.to_hashable_parts.hash_geometry = B.to_hashable_parts.hash_geometry ∧
    A.to_hashable_parts.hash_text_no_extra = B.to_hashable_parts.hash_text_no_extra ∧
    A.to_hashable_parts.hash_extra = B.to_hashable_parts.hash_extra ∧
    (A.layout ≠ B.layout → A.hashTokens ≠ B.hashTokens) := by
  refine ⟨by simp [HashableSectionParts.hash_geometry, Section.to_hashable_parts, hp, hb],
          by simp [HashableSectionParts.hash_text_no_extra, Section.to_hashable_parts, ht],
          by simp [HashableSectionParts.hash_extra, Section.to_hashable_parts, ht], ?_⟩
  intro hne h
  apply hne
  simp only [Section.hashTokens, List.cons.injEq, HashTok.layout.injEq] at h
  have hext : ∀ a b : Layout, a.id = b.id → a = b := by
    intro a b hab
    cases a
    cases b
    cases hab
    rfl
  exact hext _ _ h.1

def c9A : Section Extra := (Section.new Extra).add_text (Text.new "x")
def c9B : Section Extra := c9A.with_layout ⟨1⟩

/-- Claim C9, witness: the theorem applied to a concrete section and the
same section with a different layout. -/
theorem C9_witness :
    c9A.to_hashable_parts.hash_geometry = c9B.to_hashable_parts.hash_geometry ∧
    c9A.to_hashable_parts.hash_text_no_extra = c9B.to_hashable_parts.hash_text_no_extra ∧
    c9A.to_hashable_parts.hash_extra = c9B.to_hashable_parts.hash_extra ∧
    (c9A.layout ≠ c9B.layout → c9A.hashTokens ≠ c9B.hashTokens) :=
  C9_layout_blind c9A c9B rfl rfl rfl

/-! Claim C10. -/

/-- Claim C10: `add_text` appends its run at the end of the sequence and
leaves position, bounds and layout unchanged; `with_screen_position`,
`with_bounds` and `with_layout` each change only their own field,
leaving every other field (the run sequence included) unchanged. -/
theorem C10_builders_frame :
    ∀ (X : Type) (s : Section X) (t : Text X) (p b : F32 × F32) (l : Layout),
      (s.add_text t).text = s.text ++ [t] ∧
      (s.add_text t).screen_position = s.screen_position ∧
      (s.add_text t).bounds = s.bounds ∧
      (s.add_text t).layout = s.layout ∧
      (s.with_screen_position p).screen_position = p ∧
      (s.with_screen_position p).bounds = s.bounds ∧
      (s.with_screen_position p).layout = s.layout ∧
      (s.with_screen_position p).text = s.text ∧
      (s.with_bounds b).bounds = b ∧
      (s.with_bounds b).screen_position = s.screen_position ∧
      (s.with_bounds b).layout = s.layout ∧
      (s.with_bounds b).text = s.text ∧
      (s.with_layout l).layout = l ∧
      (s.with_layout l).screen_position = s.screen_position ∧
      (s.with_layout l).bounds = s.bounds ∧
      (s.with_layout l).text = s.text :=
  fun _ _ _ _ _ _ =>
    ⟨rfl, rfl, rfl, rfl, rfl, rfl, rfl, rfl, rfl, rfl, rfl, rfl, rfl, rfl, rfl, rfl⟩
